import Mathlib

/-!
Shallow embedding of the nero-party session core (Express handlers in the
backend server source, SQLite schema in the Prisma migrations).  Each HTTP
handler is translated to a pure function on an explicit session state; the
database transaction semantics of a handler (all writes commit, or an error
is returned before any write) is reflected by returning `Except`: an error
result models the handler returning an HTTP error before any Prisma write,
hence no state change.  JS numbers are modelled as `ℚ`; a `Number(x)` that
may be non-finite (`NaN`/`±Infinity`) is modelled as `Option ℚ` with `none`
for the non-finite case, matching the server's `Number.isFinite` guards.
Timestamps (`Date`) are milliseconds since epoch as `ℚ`; `getTime()` is the
identity on that representation.  Randomly generated identifiers (cuid) and
party-code draws are passed in as explicit parameters.
-/

namespace Nero

/-- Structural model of JS `String.prototype.toUpperCase()` (ASCII). -/
def jsToUpper (s : String) : String := String.mk (s.data.map Char.toUpper)

/-- Structural model of JS `String.prototype.trim()`. -/
def jsTrim (s : String) : String :=
  String.mk (((s.data.dropWhile Char.isWhitespace).reverse.dropWhile Char.isWhitespace).reverse)

/-- Model of `String(x).trim() || null` used for the optional song URL fields. -/
def optTrim (s : String) : Option String :=
  if jsTrim s = "" then none else some (jsTrim s)

/-- Party.status column: 'ACTIVE' (default) or 'ENDED'. -/
inductive PartyStatus where
  | ACTIVE
  | ENDED
deriving DecidableEq

/-- Party.playbackStatus column: 'PLAYING' or 'PAUSED' (default). -/
inductive PlaybackStatus where
  | PLAYING
  | PAUSED
deriving DecidableEq

/-- Participant row (id, name, isHost); partyId is implicit since we model a
single party's state. -/
structure Participant where
  id : String
  name : String
  isHost : Bool
deriving DecidableEq

/-- Song row as in the schema (partyId implicit). -/
structure Song where
  id : String
  addedById : String
  title : String
  artist : String
  artworkUrl : Option String
  previewUrl : Option String
  externalUrl : Option String
  queuePosition : Nat
deriving DecidableEq

/-- Vote row (partyId implicit): at most one per (songId, participantId) by
the schema's unique index. -/
structure Vote where
  id : String
  songId : String
  participantId : String
deriving DecidableEq

/-- State of one party: the Party row's columns plus its related rows. -/
structure PartyState where
  code : String
  name : String
  hostParticipantId : Option String
  maxSongs : Option ℚ
  durationMinutes : Option ℚ
  currentSongId : Option String
  status : PartyStatus
  playbackStatus : PlaybackStatus
  playbackStartedAt : Option ℚ
  playbackOffsetSec : ℚ
  endedAt : Option ℚ
  participants : List Participant
  songs : List Song
  votes : List Vote
deriving DecidableEq

/-- The columns of the Party table alone (the persisted session record,
without the related Participant/Song/Vote rows). -/
structure PartyRow where
  code : String
  name : String
  hostParticipantId : Option String
  maxSongs : Option ℚ
  durationMinutes : Option ℚ
  currentSongId : Option String
  status : PartyStatus
  playbackStatus : PlaybackStatus
  playbackStartedAt : Option ℚ
  playbackOffsetSec : ℚ
  endedAt : Option ℚ
deriving DecidableEq

/-- Projection of a party state onto its persisted Party row. -/
def PartyState.row (p : PartyState) : PartyRow :=
  ⟨p.code, p.name, p.hostParticipantId, p.maxSongs, p.durationMinutes,
   p.currentSongId, p.status, p.playbackStatus, p.playbackStartedAt,
   p.playbackOffsetSec, p.endedAt⟩

/-- Error kinds, mirroring the HTTP statuses the handlers return:
400 validation, 404 notFound, 403 forbidden, 409 conflict, thrown = fatal. -/
inductive ApiError where
  | validation (msg : String)
  | notFound (msg : String)
  | forbidden (msg : String)
  | conflict (msg : String)
  | fatal (msg : String)
deriving DecidableEq

/-- One entry of the final standings computed at party end (the object built
in the end handler: song fields, voteCount, queuePosition, rank). -/
structure StandingEntry where
  songId : String
  title : String
  artist : String
  voteCount : Nat
  queuePosition : Nat
  rank : Nat
deriving DecidableEq

/-- Socket.IO emissions of the handlers, in emission order. -/
inductive Event where
  | snapshot
  | queueUpdated (songId : String)
  | votesUpdated (songId : String) (voteCount : Nat)
  | partyStateUpdated (currentSongId : Option String) (status : PartyStatus)
  | statusUpdated (status : PartyStatus)
  | playbackUpdated (status : PlaybackStatus) (startedAt : Option ℚ) (offsetSec : ℚ)
  | partyEnded (winner : Option StandingEntry) (standings : List StandingEntry)
deriving DecidableEq

/-- Membership check: `prisma.participant.findFirst({id, partyId})`. -/
def isMember (p : PartyState) (participantId : String) : Bool :=
  p.participants.any (fun x => x.id == participantId)

/-- Host check, as the server's `requireHost` helper:
`findFirst({id, partyId, isHost: true})`. -/
def requireHost (p : PartyState) (participantId : String) : Bool :=
  p.participants.any (fun x => x.id == participantId && x.isHost)

/-- Number of votes for a song: `prisma.vote.count({where: {songId}})`. -/
def voteCountFor (votes : List Vote) (songId : String) : Nat :=
  (votes.filter (fun v => v.songId == songId)).length

/-- Song lookup within the party: `prisma.song.findFirst({id, partyId})`. -/
def findSong (p : PartyState) (songId : String) : Option Song :=
  p.songs.find? (fun s => s.id == songId)

/-- Capacity check of the add-song handler:
`party.maxSongs !== null && party.songs.length >= party.maxSongs`. -/
def capReached (p : PartyState) : Bool :=
  match p.maxSongs with
  | none => false
  | some m => decide ((p.songs.length : ℚ) ≥ m)

/-- POST /api/parties/:code/songs.  `freshSongId` stands for the cuid the
database generates for the created row. -/
def addSong (p : PartyState) (participantId rawTitle rawArtist : String)
    (rawArtwork rawPreview rawExternal : String) (freshSongId : String) :
    Except ApiError (Song × PartyState × List Event) :=
  let title := jsTrim rawTitle
  let artist := jsTrim rawArtist
  if participantId = "" ∨ title = "" ∨ artist = "" then
    .error (.validation "participantId, title and artist are required")
  else if p.status = .ENDED then
    .error (.conflict "Party already ended")
  else if ¬ isMember p participantId then
    .error (.forbidden "Participant is not in this party")
  else if capReached p then
    .error (.conflict "Party has reached max songs")
  else
    let song : Song :=
      ⟨freshSongId, participantId, title, artist,
       optTrim rawArtwork, optTrim rawPreview, optTrim rawExternal,
       p.songs.length + 1⟩
    let p' := { p with songs := p.songs ++ [song] }
    .ok (song, p', [.snapshot, .queueUpdated freshSongId])

/-- The vote-toggle core of the votes handler (find existing vote for the
(song, participant) pair; delete it by id, else create a fresh row), and
the recount that follows.  Returns (votes after, voteCount, voted). -/
def toggleLedger (votes : List Vote) (songId participantId freshVoteId : String) :
    List Vote × Nat × Bool :=
  match votes.find? (fun v => v.songId == songId && v.participantId == participantId) with
  | some existing =>
    let votes' := votes.filter (fun v => v.id != existing.id)
    (votes', voteCountFor votes' songId, false)
  | none =>
    let votes' := votes ++ [⟨freshVoteId, songId, participantId⟩]
    (votes', voteCountFor votes' songId, true)

/-- POST /api/parties/:code/votes. -/
def toggleVote (p : PartyState) (participantId songId freshVoteId : String) :
    Except ApiError ((String × Nat × Bool) × PartyState × List Event) :=
  if participantId = "" ∨ songId = "" then
    .error (.validation "participantId and songId are required")
  else if p.status = .ENDED then
    .error (.conflict "Party already ended")
  else if ¬ isMember p participantId then
    .error (.forbidden "Participant is not in this party")
  else if (findSong p songId).isNone then
    .error (.notFound "Song not found in this party")
  else
    let r := toggleLedger p.votes songId participantId freshVoteId
    .ok ((songId, r.2.1, r.2.2), { p with votes := r.1 },
         [.votesUpdated songId r.2.1, .snapshot])

/-- POST /api/parties/:code/current-song. -/
def setCurrentSong (p : PartyState) (participantId songId : String) :
    Except ApiError (PartyState × List Event) :=
  if participantId = "" ∨ songId = "" then
    .error (.validation "participantId and songId are required")
  else if p.status = .ENDED then
    .error (.conflict "Party already ended")
  else if ¬ requireHost p participantId then
    .error (.forbidden "Only host can change current song")
  else if (findSong p songId).isNone then
    .error (.notFound "Song not found in this party")
  else
    let p' := { p with currentSongId := some songId, playbackStatus := .PAUSED,
                       playbackStartedAt := none, playbackOffsetSec := 0 }
    .ok (p', [.partyStateUpdated p'.currentSongId p'.status, .snapshot])

/-- POST /api/parties/:code/playback.  `party?` is the result of the party
lookup by code (`none` models an unknown code).  `incomingOffsetSec` models
`Number(req.body.offsetSec)`: `some x` for a finite number, `none` for a
non-finite result, so `Number.isFinite(incomingOffsetSec)` becomes
`isSome`.  `now` is `new Date()` in milliseconds.

The derived current offset of the playback handler: elapsed seconds accrue
only when the status is PLAYING and `startedAtMs` is truthy, so a stored
start timestamp of exactly 0 contributes no elapsed time. -/
def currentOffset (p : PartyState) (now : ℚ) : ℚ :=
  p.playbackOffsetSec +
    (match p.playbackStartedAt with
     | some t => if p.playbackStatus = .PLAYING ∧ t ≠ 0
                 then max 0 ((now - t) / 1000) else 0
     | none => 0)

/-- The rest of the playback handler: PLAY and PAUSE transitions, invalid
action rejection. -/
def setPlayback (party? : Option PartyState) (participantId rawAction : String)
    (incomingOffsetSec : Option ℚ) (now : ℚ) :
    Except ApiError ((PlaybackStatus × Option ℚ × ℚ) × PartyState × List Event) :=
  let action := jsToUpper rawAction
  if participantId = "" ∨ action = "" then
    .error (.validation "participantId and action are required")
  else
    match party? with
    | none => .error (.notFound "Party not found")
    | some p =>
      if p.status = .ENDED then
        .error (.conflict "Party already ended")
      else if ¬ requireHost p participantId then
        .error (.forbidden "Only host can control playback")
      else
        let currentOffsetSec := currentOffset p now
        if action = "PLAY" then
          let playFrom := match incomingOffsetSec with
                          | some x => max 0 x
                          | none => currentOffsetSec
          let p' := { p with playbackStatus := .PLAYING,
                             playbackStartedAt := some now,
                             playbackOffsetSec := playFrom }
          .ok ((.PLAYING, some now, playFrom), p',
               [.playbackUpdated .PLAYING (some now) playFrom, .snapshot])
        else if action = "PAUSE" then
          let pauseAt := match incomingOffsetSec with
                         | some x => max 0 x
                         | none => currentOffsetSec
          let p' := { p with playbackStatus := .PAUSED,
                             playbackStartedAt := none,
                             playbackOffsetSec := pauseAt }
          .ok ((.PAUSED, none, pauseAt), p',
               [.playbackUpdated .PAUSED none pauseAt, .snapshot])
        else
          .error (.validation "action must be PLAY or PAUSE")

/-- Derived playback position, written from the specification's words
(PlaybackClock section): `position(t) = offsetSec` if PAUSED, else
`offsetSec + max(0, t - startedAt)`, with the millisecond-to-second
conversion the server applies.  Used to compare the code's playback update
against the specified one. -/
def specPosition (p : PartyState) (now : ℚ) : ℚ :=
  if p.playbackStatus = .PLAYING then
    match p.playbackStartedAt with
    | some s => p.playbackOffsetSec + max 0 ((now - s) / 1000)
    | none => p.playbackOffsetSec
  else
    p.playbackOffsetSec

/-- Stable insertion sort, modelling `Array.prototype.sort` (stable per
ES2019) with a comparator-induced total preorder `le`, where `le a b` means
comparator(a, b) ≤ 0. -/
def insertLE {α : Type} (le : α → α → Bool) (a : α) : List α → List α
  | [] => [a]
  | b :: l => if le a b then a :: b :: l else b :: insertLE le a l

/-- Sort a list by the comparator-induced preorder `le` (stable). -/
def sortLE {α : Type} (le : α → α → Bool) : List α → List α
  | [] => []
  | a :: l => insertLE le a (sortLE le l)

/-- Comparator of the end handler as a preorder test: entry `a` may precede
entry `b` exactly when `b.voteCount - a.voteCount` is negative, or zero with
`a.queuePosition - b.queuePosition` non-positive. -/
def standingLE (a b : StandingEntry) : Bool :=
  decide (b.voteCount < a.voteCount) ||
    (decide (a.voteCount = b.voteCount) && decide (a.queuePosition ≤ b.queuePosition))

/-- Ordering used by the end handler's song fetch (`orderBy queuePosition asc`). -/
def posLE (a b : Song) : Bool := decide (a.queuePosition ≤ b.queuePosition)

/-- The standings object built for one song before the rank is attached
(songId, title, artist, voteCount from the grouped vote counts with default
0, queuePosition); the rank field is a placeholder overwritten afterwards. -/
def entryOf (votes : List Vote) (s : Song) : StandingEntry :=
  ⟨s.id, s.title, s.artist, voteCountFor votes s.id, s.queuePosition, 0⟩

/-- The final `.map((song, index) => ({...song, rank: index + 1}))`,
generalised over the first index. -/
def assignRanks : Nat → List StandingEntry → List StandingEntry
  | _, [] => []
  | i, e :: l => { e with rank := i } :: assignRanks (i + 1) l

/-- RankingEngine of the end handler: fetch songs by ascending queue
position, attach vote counts, sort by the comparator, then attach 1-based
ranks. -/
def rankStandings (songs : List Song) (votes : List Vote) : List StandingEntry :=
  assignRanks 1 (sortLE standingLE ((sortLE posLE songs).map (entryOf votes)))

/-- POST /api/parties/:code/end.  `now` is `new Date()` at the terminal
update. -/
def endSession (p : PartyState) (participantId : String) (now : ℚ) :
    Except ApiError ((Option StandingEntry × List StandingEntry) × PartyState × List Event) :=
  if participantId = "" then
    .error (.validation "participantId is required")
  else if p.status = .ENDED then
    .error (.conflict "Party already ended")
  else if ¬ requireHost p participantId then
    .error (.forbidden "Only host can end party")
  else
    let standings := rankStandings p.songs p.votes
    let winner := standings.head?
    let p' := { p with status := .ENDED, endedAt := some now }
    .ok ((winner, standings), p',
         [.partyEnded winner standings, .statusUpdated .ENDED, .snapshot])

/-- The code-generation loop: try the random draws in order against the set
of codes already taken, up to the fixed attempt budget given by the list of
draws; throwing on exhaustion is the fatal error. -/
def firstFresh (taken : List String) : List String → Except ApiError String
  | [] => .error (.fatal "Could not generate unique party code")
  | c :: rest => if c ∈ taken then firstFresh taken rest else .ok c

/-- POST /api/parties.  `maxSongs`/`durationMinutes` are the results of
`parseOptionalNumber` (`none` for absent or non-finite input).  `candidates`
are the ten random code draws of `generatePartyCode`, `taken` the codes
already present, `hostId` the cuid of the created participant row.  The
`prisma.$transaction` wrapping party create, participant create and host
link is modelled as the atomic construction of the resulting state: either
the whole state is returned or an error with no visible change. -/
def createParty (rawName rawHostName : String) (maxSongs durationMinutes : Option ℚ)
    (candidates taken : List String) (hostId : String) :
    Except ApiError PartyState :=
  let name := jsTrim rawName
  let hostName := jsTrim rawHostName
  if name = "" ∨ hostName = "" then
    .error (.validation "name and hostName are required")
  else
    match firstFresh taken candidates with
    | .error e => .error e
    | .ok code =>
      .ok { code := code, name := name, hostParticipantId := some hostId,
            maxSongs := maxSongs, durationMinutes := durationMinutes,
            currentSongId := none, status := .ACTIVE,
            playbackStatus := .PAUSED, playbackStartedAt := none,
            playbackOffsetSec := 0, endedAt := none,
            participants := [⟨hostId, hostName, true⟩], songs := [], votes := [] }

/-- POST /api/parties/:code/join.  The unique-name conflict the server maps
from the database's P2002 violation on (partyId, name) is modelled as the
corresponding pre-check; in both the source and the model a name conflict
commits nothing. -/
def joinParty (p : PartyState) (rawName : String) (freshId : String) :
    Except ApiError (Participant × PartyState × List Event) :=
  let name := jsTrim rawName
  if name = "" then
    .error (.validation "name is required")
  else if p.status = .ENDED then
    .error (.conflict "Party already ended")
  else if p.participants.any (fun x => x.name == name) then
    .error (.conflict "That display name is already in use in this party")
  else
    .ok (⟨freshId, name, false⟩,
         { p with participants := p.participants ++ [⟨freshId, name, false⟩] },
         [.snapshot])

/-- One add-song request's inputs. -/
structure AddReq where
  participantId : String
  title : String
  artist : String
  artworkUrl : String
  previewUrl : String
  externalUrl : String
  freshId : String
deriving DecidableEq

/-- Run a sequence of add-song requests against one party, returning the
final state and the number of requests that succeeded. -/
def runAdds : PartyState → List AddReq → PartyState × Nat
  | p, [] => (p, 0)
  | p, r :: rs =>
    match addSong p r.participantId r.title r.artist r.artworkUrl r.previewUrl
        r.externalUrl r.freshId with
    | .ok (_, p', _) => let q := runAdds p' rs; (q.1, q.2 + 1)
    | .error _ => runAdds p rs

/-- The queue positions of a party's songs, in stored order. -/
def queuePositions (p : PartyState) : List Nat := p.songs.map Song.queuePosition

/-- Party states reachable from a successful creation through successful
playback, current-song and end operations. -/
inductive Reachable : PartyState → Prop where
  | created : ∀ rn rhn ms dm cands taken hid p,
      createParty rn rhn ms dm cands taken hid = .ok p → Reachable p
  | playbackStep : ∀ p pid act off now out p' evs, Reachable p →
      setPlayback (some p) pid act off now = .ok (out, p', evs) → Reachable p'
  | currentStep : ∀ p pid sid p' evs, Reachable p →
      setCurrentSong p pid sid = .ok (p', evs) → Reachable p'
  | endStep : ∀ p pid now out p' evs, Reachable p →
      endSession p pid now = .ok (out, p', evs) → Reachable p'

/-! ### Sorting lemmas -/

theorem perm_insertLE {α : Type} (le : α → α → Bool) (a : α) (l : List α) :
    (insertLE le a l).Perm (a :: l) := by
  induction l with
  | nil => simp [insertLE]
  | cons b l ih =>
    by_cases h : le a b
    · simp [insertLE, h]
    · simp only [insertLE, if_neg h]
      exact (ih.cons b).trans (List.Perm.swap a b l)

theorem perm_sortLE {α : Type} (le : α → α → Bool) (l : List α) :
    (sortLE le l).Perm l := by
  induction l with
  | nil => simp [sortLE]
  | cons a l ih =>
    exact (perm_insertLE le a (sortLE le l)).trans (ih.cons a)

theorem pairwise_insertLE {α : Type} (le : α → α → Bool)
    (htrans : ∀ x y z, le x y = true → le y z = true → le x z = true)
    (htotal : ∀ x y, le x y = true ∨ le y x = true)
    (a : α) (l : List α) (hl : l.Pairwise (fun x y => le x y = true)) :
    (insertLE le a l).Pairwise (fun x y => le x y = true) := by
  induction l with
  | nil => simp [insertLE]
  | cons b l ih =>
    rcases List.pairwise_cons.mp hl with ⟨hb, hl'⟩
    by_cases h : le a b
    · simp only [insertLE, if_pos h]
      refine List.pairwise_cons.mpr ⟨?_, hl⟩
      intro x hx
      rcases List.mem_cons.mp hx with rfl | hx
      · exact h
      · exact htrans a b x h (hb x hx)
    · simp only [insertLE, if_neg h]
      refine List.pairwise_cons.mpr ⟨?_, ih hl'⟩
      intro x hx
      have hperm := perm_insertLE le a l
      rcases List.mem_cons.mp (hperm.mem_iff.mp hx) with hxa | hx'
      · subst hxa
        rcases htotal x b with h' | h'
        · exact absurd h' h
        · exact h'
      · exact hb x hx'

theorem pairwise_sortLE {α : Type} (le : α → α → Bool)
    (htrans : ∀ x y z, le x y = true → le y z = true → le x z = true)
    (htotal : ∀ x y, le x y = true ∨ le y x = true)
    (l : List α) : (sortLE le l).Pairwise (fun x y => le x y = true) := by
  induction l with
  | nil => simp [sortLE]
  | cons a l ih => exact pairwise_insertLE le htrans htotal a (sortLE le l) ih

/-- The order the specification sentences describe on standings entries:
vote count descending, then queue position ascending. -/
def ClaimOrder (a b : StandingEntry) : Prop :=
  b.voteCount < a.voteCount ∨ (a.voteCount = b.voteCount ∧ a.queuePosition ≤ b.queuePosition)

theorem standingLE_iff (a b : StandingEntry) : standingLE a b = true ↔ ClaimOrder a b := by
  simp [standingLE, ClaimOrder]

theorem standingLE_trans : ∀ x y z : StandingEntry,
    standingLE x y = true → standingLE y z = true → standingLE x z = true := by
  intro x y z hxy hyz
  simp only [standingLE_iff, ClaimOrder] at *
  omega

theorem standingLE_total : ∀ x y : StandingEntry,
    standingLE x y = true ∨ standingLE y x = true := by
  intro x y
  simp only [standingLE_iff, ClaimOrder]
  omega

/-! ### Rank-assignment lemmas -/

/-- Forget the rank of a standings entry (used to compare the ranked
standings with the unranked per-song entries). -/
def setRank0 (e : StandingEntry) : StandingEntry := { e with rank := 0 }

theorem length_assignRanks (i : Nat) (l : List StandingEntry) :
    (assignRanks i l).length = l.length := by
  induction l generalizing i with
  | nil => rfl
  | cons e l ih => simp [assignRanks, ih]

theorem map_rank_assignRanks (i : Nat) (l : List StandingEntry) :
    (assignRanks i l).map StandingEntry.rank = List.range' i l.length := by
  induction l generalizing i with
  | nil => rfl
  | cons e l ih => simp [assignRanks, List.range'_succ, ih]

theorem map_setRank0_assignRanks (i : Nat) (l : List StandingEntry) :
    (assignRanks i l).map setRank0 = l.map setRank0 := by
  induction l generalizing i with
  | nil => rfl
  | cons e l ih => simp [assignRanks, setRank0, ih]

theorem mem_assignRanks {y : StandingEntry} {i : Nat} {l : List StandingEntry}
    (h : y ∈ assignRanks i l) : ∃ x ∈ l, ∃ j, y = { x with rank := j } := by
  induction l generalizing i with
  | nil => simp [assignRanks] at h
  | cons e l ih =>
    rcases List.mem_cons.mp h with rfl | h'
    · exact ⟨e, List.mem_cons_self e l, i, rfl⟩
    · rcases ih h' with ⟨x, hx, j, rfl⟩
      exact ⟨x, List.mem_cons_of_mem e hx, j, rfl⟩

theorem claimOrder_rank_free (x y : StandingEntry) (i j : Nat) (h : ClaimOrder x y) :
    ClaimOrder { x with rank := i } { y with rank := j } := h

theorem pairwise_assignRanks (i : Nat) (l : List StandingEntry)
    (h : l.Pairwise ClaimOrder) : (assignRanks i l).Pairwise ClaimOrder := by
  induction l generalizing i with
  | nil => exact List.Pairwise.nil
  | cons e l ih =>
    rcases List.pairwise_cons.mp h with ⟨he, hl⟩
    refine List.pairwise_cons.mpr ⟨?_, ih (i + 1) hl⟩
    intro y hy
    rcases mem_assignRanks hy with ⟨x, hx, j, rfl⟩
    exact claimOrder_rank_free e x i j (he x hx)

/-! ### End-of-session ranking (C1) -/

theorem endSession_ok {p : PartyState} {pid : String} {now : ℚ}
    {winner : Option StandingEntry} {st : List StandingEntry}
    {p' : PartyState} {evs : List Event}
    (h : endSession p pid now = .ok ((winner, st), p', evs)) :
    winner = st.head? ∧ st = rankStandings p.songs p.votes ∧
    p' = { p with status := .ENDED, endedAt := some now } ∧
    evs = [.partyEnded winner st, .statusUpdated .ENDED, .snapshot] ∧
    pid ≠ "" ∧ p.status ≠ .ENDED ∧ requireHost p pid = true := by
  unfold endSession at h
  split at h
  · simp at h
  split at h
  · simp at h
  split at h
  · simp at h
  rename_i h1 h2 h3
  rw [not_not] at h3
  simp only [Except.ok.injEq, Prod.mk.injEq] at h
  obtain ⟨⟨hw, hst⟩, hp', hevs⟩ := h
  subst hst
  subst hw
  exact ⟨rfl, rfl, hp'.symm, hevs.symm, h1, h2, h3⟩

theorem length_rankStandings (songs : List Song) (votes : List Vote) :
    (rankStandings songs votes).length = songs.length := by
  unfold rankStandings
  rw [length_assignRanks]
  rw [(perm_sortLE standingLE _).length_eq, List.length_map,
      (perm_sortLE posLE _).length_eq]

theorem pairwise_rankStandings (songs : List Song) (votes : List Vote) :
    (rankStandings songs votes).Pairwise ClaimOrder := by
  unfold rankStandings
  apply pairwise_assignRanks
  exact (pairwise_sortLE standingLE standingLE_trans standingLE_total _).imp
    (fun h => (standingLE_iff _ _).mp h)

theorem perm_rankStandings (songs : List Song) (votes : List Vote) :
    ((rankStandings songs votes).map setRank0).Perm (songs.map (entryOf votes)) := by
  unfold rankStandings
  rw [map_setRank0_assignRanks]
  have h1 : ((sortLE standingLE ((sortLE posLE songs).map (entryOf votes))).map setRank0).Perm
      (((sortLE posLE songs).map (entryOf votes)).map setRank0) :=
    (perm_sortLE standingLE _).map setRank0
  have h2 : ((sortLE posLE songs).map (entryOf votes)).map setRank0 =
      (sortLE posLE songs).map (entryOf votes) := by
    rw [List.map_map]
    apply List.map_congr_left
    intro s _
    rfl
  rw [h2] at h1
  exact h1.trans ((perm_sortLE posLE songs).map (entryOf votes))

/-- C1: for every session with items and a vote-count map, the standings
computed at EndSession are the items (with their derived vote counts)
sorted by vote count descending then queue position ascending; each entry's
rank is its 1-based index in that order; and the returned winner is
`standings[0]`, and is null exactly when the session has zero items. -/
theorem claim1_endSession_standings (p : PartyState) (pid : String) (now : ℚ)
    (winner : Option StandingEntry) (st : List StandingEntry)
    (p' : PartyState) (evs : List Event)
    (h : endSession p pid now = .ok ((winner, st), p', evs)) :
    st.Pairwise ClaimOrder ∧
    (st.map setRank0).Perm (p.songs.map (entryOf p.votes)) ∧
    st.map StandingEntry.rank = List.range' 1 st.length ∧
    winner = st.head? ∧
    (winner = none ↔ p.songs = []) := by
  obtain ⟨hw, hst, -, -, -, -, -⟩ := endSession_ok h
  subst hst
  refine ⟨pairwise_rankStandings p.songs p.votes, perm_rankStandings p.songs p.votes,
    ?_, hw, ?_⟩
  · unfold rankStandings
    rw [map_rank_assignRanks, length_assignRanks]
  · rw [hw]
    constructor
    · intro hh
      have hlen : (rankStandings p.songs p.votes).length = 0 := by
        cases hl : rankStandings p.songs p.votes with
        | nil => simp
        | cons a l => rw [hl] at hh; simp at hh
      rw [length_rankStandings] at hlen
      exact List.length_eq_zero.mp hlen
    · intro hh
      have : (rankStandings p.songs p.votes).length = 0 := by
        rw [length_rankStandings, hh]; rfl
      rw [List.length_eq_zero.mp this]
      rfl

/-- A concrete active party used by the witnesses: host h1, guest p1, two
songs at queue positions 1 and 2, and one vote by p1 on song s2. -/
def sampleParty : PartyState :=
  { code := "ABC123", name := "P", hostParticipantId := some "h1",
    maxSongs := none, durationMinutes := none, currentSongId := none,
    status := .ACTIVE, playbackStatus := .PAUSED, playbackStartedAt := none,
    playbackOffsetSec := 0, endedAt := none,
    participants := [⟨"h1", "Host", true⟩, ⟨"p1", "Guest", false⟩],
    songs := [⟨"s1", "h1", "A", "X", none, none, none, 1⟩,
              ⟨"s2", "p1", "B", "Y", none, none, none, 2⟩],
    votes := [⟨"v1", "s2", "p1"⟩] }

/-- The standings EndSession computes on `sampleParty`. -/
def sampleStandings : List StandingEntry :=
  [⟨"s2", "B", "Y", 1, 2, 1⟩, ⟨"s1", "A", "X", 0, 1, 2⟩]

theorem claim1_witness :
    sampleStandings.Pairwise ClaimOrder ∧
    (sampleStandings.map setRank0).Perm (sampleParty.songs.map (entryOf sampleParty.votes)) ∧
    sampleStandings.map StandingEntry.rank = List.range' 1 sampleStandings.length ∧
    (some ⟨"s2", "B", "Y", 1, 2, 1⟩ : Option StandingEntry) = sampleStandings.head? ∧
    ((some ⟨"s2", "B", "Y", 1, 2, 1⟩ : Option StandingEntry) = none ↔ sampleParty.songs = []) :=
  claim1_endSession_standings sampleParty "h1" 99 (some ⟨"s2", "B", "Y", 1, 2, 1⟩)
    sampleStandings { sampleParty with status := .ENDED, endedAt := some 99 }
    [.partyEnded (some ⟨"s2", "B", "Y", 1, 2, 1⟩) sampleStandings,
     .statusUpdated .ENDED, .snapshot]
    (by rfl)

/-! ### Queue positions (C2) -/

theorem addSong_ok {p : PartyState} {pid t a aw pv ex fid : String}
    {s : Song} {p' : PartyState} {evs : List Event}
    (h : addSong p pid t a aw pv ex fid = .ok (s, p', evs)) :
    p' = { p with songs := p.songs ++ [s] } ∧
    s.queuePosition = p.songs.length + 1 ∧
    evs = [.snapshot, .queueUpdated fid] := by
  simp only [addSong] at h
  split at h
  · simp at h
  split at h
  · simp at h
  split at h
  · simp at h
  split at h
  · simp at h
  simp only [Except.ok.injEq, Prod.mk.injEq] at h
  obtain ⟨hs, hp', hevs⟩ := h
  subst hs
  exact ⟨hp'.symm, rfl, hevs.symm⟩

theorem runAdds_positions (rs : List AddReq) (p : PartyState)
    (hpos : queuePositions p = List.range' 1 p.songs.length) :
    queuePositions (runAdds p rs).1 =
      List.range' 1 (p.songs.length + (runAdds p rs).2) := by
  induction rs generalizing p with
  | nil => simpa [runAdds] using hpos
  | cons r rs ih =>
    cases h : addSong p r.participantId r.title r.artist r.artworkUrl
        r.previewUrl r.externalUrl r.freshId with
    | error e =>
      simp only [runAdds, h]
      exact ih p hpos
    | ok v =>
      obtain ⟨s, p', evs⟩ := v
      obtain ⟨hp', hq, -⟩ := addSong_ok h
      have hlen : p'.songs.length = p.songs.length + 1 := by
        rw [hp']; simp
      have hpos' : queuePositions p' = List.range' 1 p'.songs.length := by
        subst hp'
        show (p.songs ++ [s]).map Song.queuePosition = _
        rw [List.map_append]
        unfold queuePositions at hpos
        rw [hpos]
        simp only [List.map_cons, List.map_nil, hq, List.length_append,
          List.length_cons, List.length_nil, Nat.add_zero]
        rw [List.range'_concat]
        simp [Nat.add_comm]
      simp only [runAdds, h]
      rw [ih p' hpos', hlen]
      congr 1
      omega

/-- C2: starting from a session with an empty queue, any sequence of
add-item requests leaves queue positions exactly 1..N with no gaps or
duplicates, where N is the number of requests that succeeded; and an
add-item call on a session whose capacity is set and reached fails with
Conflict(QueueFull) (and, the embedding returning an error, changes
nothing). -/
theorem claim2_queue_positions (p : PartyState) (rs : List AddReq)
    (h0 : p.songs = []) :
    queuePositions (runAdds p rs).1 = List.range' 1 (runAdds p rs).2 ∧
    (∀ q : PartyState, ∀ m : ℚ, ∀ pid t a aw pv ex fid : String,
      q.maxSongs = some m → ((q.songs.length : ℚ) ≥ m) →
      pid ≠ "" → jsTrim t ≠ "" → jsTrim a ≠ "" → q.status ≠ .ENDED →
      isMember q pid = true →
      addSong q pid t a aw pv ex fid =
        .error (.conflict "Party has reached max songs")) := by
  constructor
  · have hpos : queuePositions p = List.range' 1 p.songs.length := by
      unfold queuePositions
      rw [h0]
      rfl
    have := runAdds_positions rs p hpos
    rwa [h0, List.length_nil, Nat.zero_add] at this
  · intro q m pid t a aw pv ex fid hm hc hpid ht ha hstat hmem
    have hcap : capReached q = true := by
      simp [capReached, hm, hc]
    simp [addSong, hpid, ht, ha, hstat, hmem, hcap]

/-- A party with its capacity already reached (maxSongs 0, no songs). -/
def cappedParty : PartyState :=
  { sampleParty with maxSongs := some 0, songs := [], votes := [] }

/-- An empty-queue copy of the sample party. -/
def emptyParty : PartyState := { sampleParty with songs := [], votes := [] }

/-- Three add requests for the witness: two valid ones and one with a blank
title that fails validation. -/
def sampleAdds : List AddReq :=
  [⟨"p1", "T1", "A1", "", "", "", "n1"⟩,
   ⟨"zz", "T2", "A2", "", "", "", "n2"⟩,
   ⟨"h1", "T3", "A3", "", "", "", "n3"⟩]

theorem claim2_witness :
    queuePositions (runAdds emptyParty sampleAdds).1 =
      List.range' 1 (runAdds emptyParty sampleAdds).2 ∧
    addSong cappedParty "h1" "T" "A" "" "" "" "s9" =
      .error (.conflict "Party has reached max songs") :=
  ⟨(claim2_queue_positions emptyParty sampleAdds rfl).1,
   (claim2_queue_positions emptyParty sampleAdds rfl).2 cappedParty 0
     "h1" "T" "A" "" "" "" "s9" rfl (by simp [cappedParty])
     (by decide) (by decide) (by decide) (by decide) (by decide)⟩

/-! ### Mutations after termination (C3) -/

/-- C3: once a session is ENDED, every further well-formed mutating call
(add item, toggle vote, set current item, set playback, end session) fails
with Conflict(AlreadyEnded); the embedding returning an error, the state is
unchanged.  The well-formedness hypotheses only rule out the handlers'
earlier missing-field validation rejections, which the source checks before
looking the party up. -/
theorem claim3_ended_rejects_mutations (p : PartyState)
    (hEnd : p.status = .ENDED) :
    (∀ pid t a aw pv ex fid : String, pid ≠ "" → jsTrim t ≠ "" → jsTrim a ≠ "" →
      addSong p pid t a aw pv ex fid = .error (.conflict "Party already ended")) ∧
    (∀ pid sid fid : String, pid ≠ "" → sid ≠ "" →
      toggleVote p pid sid fid = .error (.conflict "Party already ended")) ∧
    (∀ pid sid : String, pid ≠ "" → sid ≠ "" →
      setCurrentSong p pid sid = .error (.conflict "Party already ended")) ∧
    (∀ pid act : String, ∀ off : Option ℚ, ∀ now : ℚ, pid ≠ "" → jsToUpper act ≠ "" →
      setPlayback (some p) pid act off now = .error (.conflict "Party already ended")) ∧
    (∀ pid : String, ∀ now : ℚ, pid ≠ "" →
      endSession p pid now = .error (.conflict "Party already ended")) := by
  refine ⟨?_, ?_, ?_, ?_, ?_⟩
  · intro pid t a aw pv ex fid hpid ht ha
    simp [addSong, hpid, ht, ha, hEnd]
  · intro pid sid fid hpid hsid
    simp [toggleVote, hpid, hsid, hEnd]
  · intro pid sid hpid hsid
    simp [setCurrentSong, hpid, hsid, hEnd]
  · intro pid act off now hpid hact
    simp [setPlayback, hpid, hact, hEnd]
  · intro pid now hpid
    simp [endSession, hpid, hEnd]

/-- The sample party after its host has ended it. -/
def endedParty : PartyState := { sampleParty with status := .ENDED, endedAt := some 99 }

theorem claim3_witness :
    addSong endedParty "p1" "T" "A" "" "" "" "n1" =
      .error (.conflict "Party already ended") ∧
    toggleVote endedParty "p1" "s1" "n2" = .error (.conflict "Party already ended") ∧
    setCurrentSong endedParty "h1" "s1" = .error (.conflict "Party already ended") ∧
    setPlayback (some endedParty) "h1" "PLAY" none 0 =
      .error (.conflict "Party already ended") ∧
    endSession endedParty "h1" 100 = .error (.conflict "Party already ended") :=
  ⟨(claim3_ended_rejects_mutations endedParty rfl).1 "p1" "T" "A" "" "" "" "n1"
     (by decide) (by decide) (by decide),
   (claim3_ended_rejects_mutations endedParty rfl).2.1 "p1" "s1" "n2"
     (by decide) (by decide),
   (claim3_ended_rejects_mutations endedParty rfl).2.2.1 "h1" "s1"
     (by decide) (by decide),
   (claim3_ended_rejects_mutations endedParty rfl).2.2.2.1 "h1" "PLAY" none 0
     (by decide) (by decide),
   (claim3_ended_rejects_mutations endedParty rfl).2.2.2.2 "h1" 100 (by decide)⟩

/-! ### Playback updates (C4) -/

theorem currentOffset_eq_specPosition (p : PartyState) (now : ℚ)
    (h0 : p.playbackStartedAt ≠ some 0) :
    currentOffset p now = specPosition p now := by
  unfold currentOffset specPosition
  cases hsa : p.playbackStartedAt with
  | none =>
    cases hps : p.playbackStatus <;> simp
  | some t =>
    have ht : t ≠ 0 := by
      intro hh
      exact h0 (by rw [hsa, hh])
    cases hps : p.playbackStatus with
    | PLAYING => simp [ht]
    | PAUSED => simp

/-- The sample party with a paused offset of 7 seconds. -/
def pausedParty : PartyState := { sampleParty with playbackOffsetSec := 7 }

/-- The sample party playing since the epoch-zero timestamp with offset 7. -/
def zeroStartParty : PartyState :=
  { sampleParty with playbackStatus := .PLAYING, playbackStartedAt := some 0,
                     playbackOffsetSec := 7 }

/-- The offset the playback handler stores, when the call succeeds. -/
def playbackOffsetOf (p? : Option PartyState) (pid act : String)
    (off : Option ℚ) (now : ℚ) : Option ℚ :=
  match setPlayback p? pid act off now with
  | .ok (_, p', _) => some p'.playbackOffsetSec
  | .error _ => none

/-- C4 fails on the code at two independent inputs.  First, a Pause call
that supplies a finite but negative explicit offset: the claim requires the
new `offsetSec` to fall back to `position(now)` unless the explicit offset
is provided, finite and non-negative — here `position(now)` is 7 — but the
handler only tests `Number.isFinite` and then clamps with `Math.max(0, x)`,
storing 0.  Second, a Pause call with no explicit offset on a PLAYING state
whose stored start timestamp is exactly 0: the claim requires the fallback
`position(now)`, which is 8 one second after the epoch, but the handler's
truthiness guard on `startedAtMs` treats the zero timestamp as absent and
accrues no elapsed time, storing 7. -/
theorem claim4_counterexample :
    (setPlayback (some pausedParty) "h1" "PAUSE" (some (-5)) 1000 =
      .ok ((.PAUSED, none, 0),
           { pausedParty with playbackStatus := .PAUSED,
                              playbackStartedAt := none,
                              playbackOffsetSec := 0 },
           [.playbackUpdated .PAUSED none 0, .snapshot]) ∧
     specPosition pausedParty 1000 = 7 ∧ (0 : ℚ) ≠ 7) ∧
    (playbackOffsetOf (some zeroStartParty) "h1" "PAUSE" none 1000 = some 7 ∧
     specPosition zeroStartParty 1000 = 8 ∧ (7 : ℚ) ≠ 8) :=
  ⟨⟨by rfl, by rfl, by decide⟩,
   ⟨by
      have hrun : setPlayback (some zeroStartParty) "h1" "PAUSE" none 1000 =
          .ok ((.PAUSED, none, (7 : ℚ) + 0),
               { zeroStartParty with playbackStatus := .PAUSED,
                                     playbackStartedAt := none,
                                     playbackOffsetSec := (7 : ℚ) + 0 },
               [.playbackUpdated .PAUSED none ((7 : ℚ) + 0), .snapshot]) := by rfl
      unfold playbackOffsetOf
      rw [hrun]
      simp,
    by
      have h1 : specPosition zeroStartParty 1000 =
          7 + max 0 ((1000 - 0) / 1000) := by rfl
      have h2 : ((1000 : ℚ) - 0) / 1000 = 1 := by norm_num
      rw [h1, h2, max_eq_right (by norm_num : (0 : ℚ) ≤ 1)]
      norm_num,
    by decide⟩⟩

/-- The offset the amended claim mandates: the clamped explicit offset when
one is provided and finite, else the given fallback position. -/
def offsetBase (off : Option ℚ) (fallback : ℚ) : ℚ :=
  match off with
  | some x => max 0 x
  | none => fallback

/-- C4 amended: for every playback state whose stored start timestamp is
not exactly 0 and every Play or Pause call, the new `offsetSec` equals
`max(0, explicit offset)` when an explicit finite offset is provided and
otherwise equals `position(now)` derived from the prior state; Play
additionally sets status PLAYING and `startedAt = now`, while Pause sets
status PAUSED and `startedAt = null`.  (The counterexample forces the
clamped form for explicit offsets; the zero-timestamp exclusion reflects
the handler's truthiness test on `startedAtMs`.) -/
theorem claim4_playback_update (p : PartyState) (pid act : String)
    (off : Option ℚ) (now : ℚ)
    (out : PlaybackStatus × Option ℚ × ℚ) (p' : PartyState) (evs : List Event)
    (h : setPlayback (some p) pid act off now = .ok (out, p', evs))
    (h0 : p.playbackStartedAt ≠ some 0) :
    (jsToUpper act = "PLAY" →
      p'.playbackStatus = .PLAYING ∧ p'.playbackStartedAt = some now ∧
      p'.playbackOffsetSec = offsetBase off (specPosition p now)) ∧
    (jsToUpper act = "PAUSE" →
      p'.playbackStatus = .PAUSED ∧ p'.playbackStartedAt = none ∧
      p'.playbackOffsetSec = offsetBase off (specPosition p now)) := by
  simp only [setPlayback] at h
  split at h
  · simp at h
  split at h
  · simp at h
  split at h
  · simp at h
  split at h
  · -- PLAY branch
    rename_i hplay
    simp only [Except.ok.injEq, Prod.mk.injEq] at h
    obtain ⟨-, hp', -⟩ := h
    subst hp'
    constructor
    · intro _
      refine ⟨rfl, rfl, ?_⟩
      cases off with
      | some x => rfl
      | none =>
        show currentOffset p now = offsetBase none (specPosition p now)
        rw [currentOffset_eq_specPosition p now h0]
        rfl
    · intro hpause
      rw [hplay] at hpause
      simp at hpause
  split at h
  · -- PAUSE branch
    rename_i hplay hpause
    simp only [Except.ok.injEq, Prod.mk.injEq] at h
    obtain ⟨-, hp', -⟩ := h
    subst hp'
    constructor
    · intro hplay'
      rw [hpause] at hplay'
      simp at hplay'
    · intro _
      refine ⟨rfl, rfl, ?_⟩
      cases off with
      | some x => rfl
      | none =>
        show currentOffset p now = offsetBase none (specPosition p now)
        rw [currentOffset_eq_specPosition p now h0]
        rfl
  · simp at h

theorem claim4_witness :
    ({ pausedParty with playbackStatus := .PAUSED, playbackStartedAt := none,
                        playbackOffsetSec := max 0 2 } : PartyState).playbackStatus = .PAUSED ∧
    ({ pausedParty with playbackStatus := .PAUSED, playbackStartedAt := none,
                        playbackOffsetSec := max 0 2 } : PartyState).playbackStartedAt = none ∧
    ({ pausedParty with playbackStatus := .PAUSED, playbackStartedAt := none,
                        playbackOffsetSec := max 0 2 } : PartyState).playbackOffsetSec =
      offsetBase (some 2) (specPosition pausedParty 1000) :=
  have h := claim4_playback_update pausedParty "h1" "PAUSE" (some 2) 1000
    (.PAUSED, none, max 0 2)
    { pausedParty with playbackStatus := .PAUSED, playbackStartedAt := none,
                       playbackOffsetSec := max 0 2 }
    [.playbackUpdated .PAUSED none (max 0 2), .snapshot]
    (by rfl) (by decide)
  ⟨(h.2 (by decide)).1, (h.2 (by decide)).2.1, (h.2 (by decide)).2.2⟩

/-! ### Vote toggling (C5) -/

theorem filter_fresh_id (votes : List Vote) (fid : String)
    (hfresh : fid ∉ votes.map Vote.id) :
    votes.filter (fun v => v.id != fid) = votes := by
  apply List.filter_eq_self.mpr
  intro v hv
  have : v.id ≠ fid := by
    intro he
    exact hfresh (he ▸ List.mem_map_of_mem Vote.id hv)
  simpa using this

theorem count_after_erase (votes : List Vote) (sid : String) (ex : Vote)
    (hnd : (votes.map Vote.id).Nodup) (hmem : ex ∈ votes)
    (hsid : ex.songId = sid) :
    voteCountFor (votes.filter (fun v => v.id != ex.id)) sid + 1 =
      voteCountFor votes sid := by
  induction votes with
  | nil => cases hmem
  | cons a l ih =>
    simp only [List.map_cons, List.nodup_cons] at hnd
    obtain ⟨hna, hndl⟩ := hnd
    rcases List.mem_cons.mp hmem with hax | hml
    · subst hax
      have hl : l.filter (fun v => v.id != ex.id) = l :=
        filter_fresh_id l ex.id hna
      unfold voteCountFor
      simp [List.filter_cons, hsid, hl]
    · have hne : a.id ≠ ex.id := by
        intro he
        exact hna (he ▸ List.mem_map_of_mem Vote.id hml)
      have hkeep : (a.id != ex.id) = true := by simpa using hne
      unfold voteCountFor
      rw [List.filter_cons, if_pos hkeep]
      by_cases has : (a.songId == sid) = true
      · rw [List.filter_cons, if_pos has, List.filter_cons, if_pos has]
        simp only [List.length_cons]
        have := ih hndl hml
        unfold voteCountFor at this
        omega
      · rw [List.filter_cons, if_neg has, List.filter_cons, if_neg has]
        exact ih hndl hml

theorem toggleLedger_twice (votes : List Vote) (sid pid fid1 fid2 : String)
    (huniq : ∀ v w : Vote, v ∈ votes → w ∈ votes → v.songId = sid →
      v.participantId = pid → w.songId = sid → w.participantId = pid → v = w)
    (hnd : (votes.map Vote.id).Nodup)
    (hfresh : fid1 ∉ votes.map Vote.id) :
    (toggleLedger (toggleLedger votes sid pid fid1).1 sid pid fid2).2.2 =
      !(toggleLedger votes sid pid fid1).2.2 ∧
    voteCountFor (toggleLedger (toggleLedger votes sid pid fid1).1 sid pid fid2).1 sid =
      voteCountFor votes sid := by
  cases hf : votes.find? (fun v => v.songId == sid && v.participantId == pid) with
  | none =>
    have hfind2 : (votes ++ [(⟨fid1, sid, pid⟩ : Vote)]).find?
        (fun v => v.songId == sid && v.participantId == pid) = some ⟨fid1, sid, pid⟩ := by
      rw [List.find?_append, hf]
      simp
    have hfilter : (votes ++ [(⟨fid1, sid, pid⟩ : Vote)]).filter
        (fun v => v.id != (⟨fid1, sid, pid⟩ : Vote).id) = votes := by
      rw [List.filter_append, filter_fresh_id votes fid1 hfresh]
      simp
    simp only [toggleLedger, hf, hfind2, hfilter]
    exact ⟨rfl, trivial⟩
  | some ex =>
    have hpair : ex.songId = sid ∧ ex.participantId = pid := by
      have := List.find?_some hf
      simpa using this
    have hmem := List.mem_of_find?_eq_some hf
    have hnone2 : (votes.filter (fun v => v.id != ex.id)).find?
        (fun v => v.songId == sid && v.participantId == pid) = none := by
      apply List.find?_eq_none.mpr
      intro v hv hpv
      obtain ⟨hvmem, hvid⟩ := List.mem_filter.mp hv
      have hpv' : v.songId = sid ∧ v.participantId = pid := by simpa using hpv
      have hveq : v = ex := huniq v ex hvmem hmem hpv'.1 hpv'.2 hpair.1 hpair.2
      rw [hveq] at hvid
      simp at hvid
    simp only [toggleLedger, hf, hnone2]
    refine ⟨rfl, ?_⟩
    have h1 : voteCountFor (votes.filter (fun v => v.id != ex.id) ++
        [(⟨fid2, sid, pid⟩ : Vote)]) sid =
        voteCountFor (votes.filter (fun v => v.id != ex.id)) sid + 1 := by
      unfold voteCountFor
      rw [List.filter_append]
      simp
    rw [h1, count_after_erase votes sid ex hnd hmem hpair.1]

theorem toggleVote_ok {p : PartyState} {pid sid fid : String}
    {r : String × Nat × Bool} {p' : PartyState} {evs : List Event}
    (h : toggleVote p pid sid fid = .ok (r, p', evs)) :
    r = (sid, (toggleLedger p.votes sid pid fid).2.1,
         (toggleLedger p.votes sid pid fid).2.2) ∧
    p' = { p with votes := (toggleLedger p.votes sid pid fid).1 } ∧
    p.status ≠ .ENDED ∧ isMember p pid = true ∧ (findSong p sid).isSome := by
  simp only [toggleVote] at h
  split at h
  · simp at h
  split at h
  · simp at h
  split at h
  · simp at h
  split at h
  · simp at h
  rename_i h1 h2 h3 h4
  rw [not_not] at h3
  simp only [Except.ok.injEq, Prod.mk.injEq] at h
  obtain ⟨hr, hp', -⟩ := h
  refine ⟨hr.symm, hp'.symm, h2, h3, ?_⟩
  rcases hs : findSong p sid with _ | s
  · rw [hs] at h4
    simp at h4
  · simp

/-- C5: on any vote state satisfying the schema's uniqueness invariants
(at most one vote row per (item, participant) pair; distinct vote row ids)
and with the first created row's id fresh, toggling the same (item,
participant) pair twice in succession through the votes handler flips the
`voted` flag back (the second call returns the negation of the first) and
restores the item's vote count to its value before the first call. -/
theorem claim5_toggle_twice (p : PartyState) (pid sid fid1 fid2 : String)
    (r1 : String × Nat × Bool) (p1 : PartyState) (e1 : List Event)
    (r2 : String × Nat × Bool) (p2 : PartyState) (e2 : List Event)
    (huniq : ∀ v w : Vote, v ∈ p.votes → w ∈ p.votes → v.songId = sid →
      v.participantId = pid → w.songId = sid → w.participantId = pid → v = w)
    (hnd : (p.votes.map Vote.id).Nodup)
    (hfresh : fid1 ∉ p.votes.map Vote.id)
    (h1 : toggleVote p pid sid fid1 = .ok (r1, p1, e1))
    (h2 : toggleVote p1 pid sid fid2 = .ok (r2, p2, e2)) :
    r2.2.2 = !r1.2.2 ∧ voteCountFor p2.votes sid = voteCountFor p.votes sid := by
  obtain ⟨hr1, hp1, -, -, -⟩ := toggleVote_ok h1
  obtain ⟨hr2, hp2, -, -, -⟩ := toggleVote_ok h2
  have hvotes1 : p1.votes = (toggleLedger p.votes sid pid fid1).1 := by
    rw [hp1]
  have hmain := toggleLedger_twice p.votes sid pid fid1 fid2 huniq hnd hfresh
  constructor
  · rw [hr2, hr1, hvotes1]
    exact hmain.1
  · rw [hp2, hvotes1]
    exact hmain.2

theorem claim5_witness :
    (("s1", 0, false) : String × Nat × Bool).2.2 =
      !(("s1", 1, true) : String × Nat × Bool).2.2 ∧
    voteCountFor [(⟨"v1", "s2", "p1"⟩ : Vote)] "s1" =
      voteCountFor sampleParty.votes "s1" :=
  claim5_toggle_twice sampleParty "p1" "s1" "vA" "vB"
    ("s1", 1, true)
    { sampleParty with votes := [⟨"v1", "s2", "p1"⟩, ⟨"vA", "s1", "p1"⟩] }
    [.votesUpdated "s1" 1, .snapshot]
    ("s1", 0, false)
    { sampleParty with votes := [⟨"v1", "s2", "p1"⟩] }
    [.votesUpdated "s1" 0, .snapshot]
    (by
      intro v w hv hw hvs hvp hws hwp
      simp only [sampleParty, List.mem_singleton] at hv
      subst hv
      exact absurd hvs (by decide))
    (by decide) (by decide) (by rfl) (by rfl)

/-! ### Playback invariant (C6) -/

theorem setCurrentSong_ok {p : PartyState} {pid sid : String}
    {p' : PartyState} {evs : List Event}
    (h : setCurrentSong p pid sid = .ok (p', evs)) :
    p' = { p with currentSongId := some sid, playbackStatus := .PAUSED,
                  playbackStartedAt := none, playbackOffsetSec := 0 } ∧
    evs = [.partyStateUpdated p'.currentSongId p'.status, .snapshot] := by
  simp only [setCurrentSong] at h
  split at h
  · simp at h
  split at h
  · simp at h
  split at h
  · simp at h
  split at h
  · simp at h
  simp only [Except.ok.injEq, Prod.mk.injEq] at h
  obtain ⟨hp', hevs⟩ := h
  subst hp'
  exact ⟨rfl, hevs.symm⟩

theorem setPlayback_ok_playback {p? : Option PartyState} {pid act : String}
    {off : Option ℚ} {now : ℚ} {out : PlaybackStatus × Option ℚ × ℚ}
    {p' : PartyState} {evs : List Event}
    (h : setPlayback p? pid act off now = .ok (out, p', evs)) :
    (p'.playbackStatus = .PLAYING ∧ p'.playbackStartedAt = some now) ∨
    (p'.playbackStatus = .PAUSED ∧ p'.playbackStartedAt = none) := by
  simp only [setPlayback] at h
  split at h
  · simp at h
  split at h
  · simp at h
  split at h
  · simp at h
  split at h
  · simp at h
  split at h
  · simp only [Except.ok.injEq, Prod.mk.injEq] at h
    obtain ⟨-, hp', -⟩ := h
    subst hp'
    exact Or.inl ⟨rfl, rfl⟩
  split at h
  · simp only [Except.ok.injEq, Prod.mk.injEq] at h
    obtain ⟨-, hp', -⟩ := h
    subst hp'
    exact Or.inr ⟨rfl, rfl⟩
  · simp at h

theorem firstFresh_ok {taken : List String} :
    ∀ {cands : List String} {c : String},
    firstFresh taken cands = .ok c → c ∈ cands ∧ c ∉ taken := by
  intro cands
  induction cands with
  | nil => intro c h; simp [firstFresh] at h
  | cons a rest ih =>
    intro c h
    unfold firstFresh at h
    split at h
    · obtain ⟨h1, h2⟩ := ih h
      exact ⟨List.mem_cons_of_mem a h1, h2⟩
    · rename_i hnot
      simp only [Except.ok.injEq] at h
      subst h
      exact ⟨List.mem_cons_self _ _, hnot⟩

theorem createParty_ok {rn rhn : String} {ms dm : Option ℚ}
    {cands taken : List String} {hid : String} {p : PartyState}
    (h : createParty rn rhn ms dm cands taken hid = .ok p) :
    p.hostParticipantId = some hid ∧
    p.participants = [⟨hid, jsTrim rhn, true⟩] ∧
    p.status = .ACTIVE ∧ p.songs = [] ∧ p.votes = [] ∧
    p.currentSongId = none ∧ p.playbackStatus = .PAUSED ∧
    p.playbackStartedAt = none ∧ p.playbackOffsetSec = 0 ∧ p.endedAt = none ∧
    p.code ∈ cands ∧ p.code ∉ taken := by
  simp only [createParty] at h
  split at h
  · simp at h
  split at h
  · simp at h
  · rename_i code hcode
    simp only [Except.ok.injEq] at h
    subst h
    obtain ⟨hc1, hc2⟩ := firstFresh_ok hcode
    exact ⟨rfl, rfl, rfl, rfl, rfl, rfl, rfl, rfl, rfl, rfl, hc1, hc2⟩

/-- C6: in every session state reachable from creation through playback,
current-item and end operations, the playback `startedAt` field is non-null
exactly when the playback status is PLAYING. -/
theorem claim6_startedAt_iff_playing (p : PartyState) (h : Reachable p) :
    p.playbackStartedAt ≠ none ↔ p.playbackStatus = .PLAYING := by
  induction h with
  | created rn rhn ms dm cands taken hid q hq =>
    obtain ⟨-, -, -, -, -, -, hps, hsa, -, -, -, -⟩ := createParty_ok hq
    rw [hps, hsa]
    simp
  | playbackStep q pid act off now out q' evs hr hq ih =>
    rcases setPlayback_ok_playback hq with ⟨h1, h2⟩ | ⟨h1, h2⟩
    · rw [h1, h2]
      simp
    · rw [h1, h2]
      simp
  | currentStep q pid sid q' evs hr hq ih =>
    obtain ⟨hp', -⟩ := setCurrentSong_ok hq
    rw [hp']
    simp
  | endStep q pid now out q' evs hr hq ih =>
    obtain ⟨w, st⟩ := out
    obtain ⟨-, -, hp', -, -, -, -⟩ := endSession_ok hq
    rw [hp']
    exact ih

/-- The party state a successful creation call commits. -/
def createdParty : PartyState :=
  { code := "ABC123", name := "Party", hostParticipantId := some "h1",
    maxSongs := none, durationMinutes := none, currentSongId := none,
    status := .ACTIVE, playbackStatus := .PAUSED, playbackStartedAt := none,
    playbackOffsetSec := 0, endedAt := none,
    participants := [⟨"h1", "Host", true⟩], songs := [], votes := [] }

theorem claim6_witness :
    createdParty.playbackStartedAt ≠ none ↔ createdParty.playbackStatus = .PLAYING :=
  claim6_startedAt_iff_playing createdParty
    (.created "Party" "Host" none none ["ABC123"] [] "h1" createdParty (by rfl))

/-! ### Terminal record and idempotent termination (C7) -/

/-- The standings a call to the end handler returns, when it succeeds. -/
def endStandingsOf (p : PartyState) (pid : String) (now : ℚ) :
    Option (List StandingEntry) :=
  match endSession p pid now with
  | .ok ((_, st), _, _) => some st
  | .error _ => none

/-- The persisted Party row a call to the end handler leaves behind, when it
succeeds. -/
def endRowOf (p : PartyState) (pid : String) (now : ℚ) : Option PartyRow :=
  match endSession p pid now with
  | .ok (_, p', _) => some p'.row
  | .error _ => none

/-- The sample party with its vote removed. -/
def noVotesParty : PartyState := { sampleParty with votes := [] }

/-- C7 fails on the code: the standings are not persisted as the terminal
record of the session.  Two sessions whose EndSession calls return
different standings commit bit-identical terminal Party rows — the end
handler's update writes only `status` and `endedAt` — so a later read of
the terminated session's record cannot return the standings without
recomputing them from the still-stored votes. -/
theorem claim7_counterexample :
    endStandingsOf noVotesParty "h1" 99 ≠ endStandingsOf sampleParty "h1" 99 ∧
    endRowOf noVotesParty "h1" 99 = endRowOf sampleParty "h1" 99 := by
  constructor
  · decide
  · decide

/-- C7 amended: the ranking computation runs only inside EndSession, whose
result (winner and standings) is returned and broadcast but not persisted:
the terminal update writes only `status = ENDED` and `endedAt` to the
session record, leaving every other field (including the stored votes, from
which a reader would have to recompute standings) untouched; and any
further well-formed EndSession call is rejected with
Conflict(AlreadyEnded), so the computation never reruns for that session. -/
theorem claim7_terminal_record (p : PartyState) (pid : String) (now : ℚ)
    (out : Option StandingEntry × List StandingEntry)
    (p' : PartyState) (evs : List Event)
    (h : endSession p pid now = .ok (out, p', evs)) :
    p' = { p with status := .ENDED, endedAt := some now } ∧
    (∀ pid2 : String, ∀ now2 : ℚ, pid2 ≠ "" →
      endSession p' pid2 now2 = .error (.conflict "Party already ended")) := by
  obtain ⟨w, st⟩ := out
  obtain ⟨-, -, hp', -, -, -, -⟩ := endSession_ok h
  subst hp'
  refine ⟨rfl, ?_⟩
  intro pid2 now2 hpid2
  simp [endSession, hpid2]

theorem claim7_witness :
    endedParty = { sampleParty with status := .ENDED, endedAt := some 99 } ∧
    endSession endedParty "h9" 123 = .error (.conflict "Party already ended") :=
  have t := claim7_terminal_record sampleParty "h1" 99
    (some ⟨"s2", "B", "Y", 1, 2, 1⟩, sampleStandings) endedParty
    [.partyEnded (some ⟨"s2", "B", "Y", 1, 2, 1⟩) sampleStandings,
     .statusUpdated .ENDED, .snapshot]
    (by rfl)
  ⟨t.1, t.2 "h9" 123 (by decide)⟩

/-! ### Atomic creation (C8) -/

/-- C8: a successful CreateSession commits both the session and its host
participant together: the committed state carries exactly the one host
participant row, the session's host reference links to it, and the session
starts ACTIVE with an empty queue, no votes, and a paused zero-offset
playback clock (with a fresh code drawn from the candidates).  A failed
call — missing fields or code-generation exhaustion — returns an error
before the transaction, which in this embedding of `prisma.$transaction`
means no state is produced at all, so neither row is ever visible alone. -/
theorem claim8_create_atomic (rn rhn : String) (ms dm : Option ℚ)
    (cands taken : List String) (hid : String) (p : PartyState)
    (h : createParty rn rhn ms dm cands taken hid = .ok p) :
    p.hostParticipantId = some hid ∧
    p.participants = [⟨hid, jsTrim rhn, true⟩] ∧
    p.status = .ACTIVE ∧ p.songs = [] ∧ p.votes = [] ∧
    p.currentSongId = none ∧ p.playbackStatus = .PAUSED ∧
    p.playbackStartedAt = none ∧ p.playbackOffsetSec = 0 ∧ p.endedAt = none ∧
    p.code ∈ cands ∧ p.code ∉ taken :=
  createParty_ok h

theorem claim8_witness :
    createdParty.hostParticipantId = some "h1" ∧
    createdParty.participants = [⟨"h1", jsTrim "Host", true⟩] ∧
    createdParty.status = .ACTIVE ∧ createdParty.songs = [] ∧
    createdParty.votes = [] ∧ createdParty.currentSongId = none ∧
    createdParty.playbackStatus = .PAUSED ∧
    createdParty.playbackStartedAt = none ∧
    createdParty.playbackOffsetSec = 0 ∧ createdParty.endedAt = none ∧
    createdParty.code ∈ ["ABC123"] ∧ createdParty.code ∉ ([] : List String) :=
  claim8_create_atomic "Party" "Host" none none ["ABC123"] [] "h1"
    createdParty (by rfl)

/-! ### Broadcast ordering (C9) -/

/-- The events a call to the votes handler emits, when it succeeds. -/
def toggleEventsOf (p : PartyState) (pid sid fid : String) : Option (List Event) :=
  match toggleVote p pid sid fid with
  | .ok (_, _, evs) => some evs
  | .error _ => none

/-- C9 fails on the code: a successful vote toggle emits its
operation-specific `votes:updated` event BEFORE the snapshot (the votes
handler emits `votes:updated` and only then awaits the snapshot emission),
while the claim requires the snapshot first for every mutating operation. -/
theorem claim9_counterexample :
    toggleEventsOf sampleParty "p1" "s1" "vA" =
      some [.votesUpdated "s1" 1, .snapshot] ∧
    some [Event.votesUpdated "s1" 1, Event.snapshot] ≠
      some [Event.snapshot, Event.votesUpdated "s1" 1] := by
  constructor
  · decide
  · decide

theorem toggleVote_evs {p : PartyState} {pid sid fid : String}
    {r : String × Nat × Bool} {p' : PartyState} {evs : List Event}
    (h : toggleVote p pid sid fid = .ok (r, p', evs)) :
    evs = [.votesUpdated sid (toggleLedger p.votes sid pid fid).2.1, .snapshot] := by
  simp only [toggleVote] at h
  split at h
  · simp at h
  split at h
  · simp at h
  split at h
  · simp at h
  split at h
  · simp at h
  simp only [Except.ok.injEq, Prod.mk.injEq] at h
  exact h.2.2.symm

theorem setPlayback_evs {p? : Option PartyState} {pid act : String}
    {off : Option ℚ} {now : ℚ} {out : PlaybackStatus × Option ℚ × ℚ}
    {p' : PartyState} {evs : List Event}
    (h : setPlayback p? pid act off now = .ok (out, p', evs)) :
    evs = [.playbackUpdated p'.playbackStatus p'.playbackStartedAt
             p'.playbackOffsetSec, .snapshot] := by
  simp only [setPlayback] at h
  split at h
  · simp at h
  split at h
  · simp at h
  split at h
  · simp at h
  split at h
  · simp at h
  split at h
  · simp only [Except.ok.injEq, Prod.mk.injEq] at h
    obtain ⟨-, hp', hevs⟩ := h
    subst hp'
    exact hevs.symm
  split at h
  · simp only [Except.ok.injEq, Prod.mk.injEq] at h
    obtain ⟨-, hp', hevs⟩ := h
    subst hp'
    exact hevs.symm
  · simp at h

theorem joinParty_evs {p : PartyState} {n fid : String}
    {part : Participant} {p' : PartyState} {evs : List Event}
    (h : joinParty p n fid = .ok (part, p', evs)) : evs = [.snapshot] := by
  simp only [joinParty] at h
  split at h
  · simp at h
  split at h
  · simp at h
  split at h
  · simp at h
  simp only [Except.ok.injEq, Prod.mk.injEq] at h
  exact h.2.2.symm

/-- C9 amended: every successful mutating operation publishes after its
state commit, but only AddItem publishes the snapshot before its
operation-specific event; ToggleVote, SetCurrentItem, SetPlayback and
EndSession publish their operation-specific events first and the snapshot
last, and JoinSession publishes only a snapshot. -/
theorem claim9_publish_order :
    (∀ (p : PartyState) (pid t a aw pv ex fid : String) (s : Song)
       (p' : PartyState) (evs : List Event),
      addSong p pid t a aw pv ex fid = .ok (s, p', evs) →
      evs = [.snapshot, .queueUpdated fid]) ∧
    (∀ (p : PartyState) (pid sid fid : String) (r : String × Nat × Bool)
       (p' : PartyState) (evs : List Event),
      toggleVote p pid sid fid = .ok (r, p', evs) →
      evs = [.votesUpdated sid r.2.1, .snapshot]) ∧
    (∀ (p : PartyState) (pid sid : String) (p' : PartyState) (evs : List Event),
      setCurrentSong p pid sid = .ok (p', evs) →
      evs = [.partyStateUpdated p'.currentSongId p'.status, .snapshot]) ∧
    (∀ (p? : Option PartyState) (pid act : String) (off : Option ℚ) (now : ℚ)
       (out : PlaybackStatus × Option ℚ × ℚ) (p' : PartyState) (evs : List Event),
      setPlayback p? pid act off now = .ok (out, p', evs) →
      evs = [.playbackUpdated p'.playbackStatus p'.playbackStartedAt
               p'.playbackOffsetSec, .snapshot]) ∧
    (∀ (p : PartyState) (pid : String) (now : ℚ) (w : Option StandingEntry)
       (st : List StandingEntry) (p' : PartyState) (evs : List Event),
      endSession p pid now = .ok ((w, st), p', evs) →
      evs = [.partyEnded w st, .statusUpdated .ENDED, .snapshot]) ∧
    (∀ (p : PartyState) (n fid : String) (part : Participant)
       (p' : PartyState) (evs : List Event),
      joinParty p n fid = .ok (part, p', evs) → evs = [.snapshot]) := by
  refine ⟨?_, ?_, ?_, ?_, ?_, ?_⟩
  · intro p pid t a aw pv ex fid s p' evs h
    exact (addSong_ok h).2.2
  · intro p pid sid fid r p' evs h
    obtain ⟨hr, -, -, -, -⟩ := toggleVote_ok h
    subst hr
    exact (toggleVote_evs h)
  · intro p pid sid p' evs h
    exact (setCurrentSong_ok h).2
  · intro p? pid act off now out p' evs h
    exact setPlayback_evs h
  · intro p pid now w st p' evs h
    exact (endSession_ok h).2.2.2.1
  · intro p n fid part p' evs h
    exact joinParty_evs h

theorem claim9_witness :
    ([Event.votesUpdated "s1" 1, Event.snapshot] : List Event) =
      [.votesUpdated "s1" (("s1", 1, true) : String × Nat × Bool).2.1, .snapshot] :=
  claim9_publish_order.2.1 sampleParty "p1" "s1" "vA" ("s1", 1, true)
    { sampleParty with votes := [⟨"v1", "s2", "p1"⟩, ⟨"vA", "s1", "p1"⟩] }
    [.votesUpdated "s1" 1, .snapshot] (by rfl)

/-! ### Invalid playback action (C10) -/

/-- C10: a SetPlayback call whose upper-cased action is neither PLAY nor
PAUSE fails with a Validation error on an active session when issued by the
host (leaving the state unchanged, the handler returning before any write),
and this invalid-action check runs only after the NotFound, AlreadyEnded
and NotHost checks: with the same invalid action, an unknown session yields
NotFound, an ended session yields Conflict(AlreadyEnded), and a non-host
caller yields Forbidden(NotHost). -/
theorem claim10_invalid_action (p : PartyState) (pid rawAction : String)
    (off : Option ℚ) (now : ℚ)
    (hplay : jsToUpper rawAction ≠ "PLAY") (hpause : jsToUpper rawAction ≠ "PAUSE")
    (hne : jsToUpper rawAction ≠ "") (hpid : pid ≠ "") :
    setPlayback none pid rawAction off now = .error (.notFound "Party not found") ∧
    (p.status = .ENDED →
      setPlayback (some p) pid rawAction off now =
        .error (.conflict "Party already ended")) ∧
    (p.status ≠ .ENDED → requireHost p pid = false →
      setPlayback (some p) pid rawAction off now =
        .error (.forbidden "Only host can control playback")) ∧
    (p.status ≠ .ENDED → requireHost p pid = true →
      setPlayback (some p) pid rawAction off now =
        .error (.validation "action must be PLAY or PAUSE")) := by
  refine ⟨?_, ?_, ?_, ?_⟩
  · simp [setPlayback, hpid, hne]
  · intro hEnd
    simp [setPlayback, hpid, hne, hEnd]
  · intro hAct hHost
    simp [setPlayback, hpid, hne, hAct, hHost]
  · intro hAct hHost
    simp [setPlayback, hpid, hne, hAct, hHost, hplay, hpause]

theorem claim10_witness :
    setPlayback none "h1" "STOP" none 0 = .error (.notFound "Party not found") ∧
    setPlayback (some endedParty) "h1" "STOP" none 0 =
      .error (.conflict "Party already ended") ∧
    setPlayback (some sampleParty) "p1" "STOP" none 0 =
      .error (.forbidden "Only host can control playback") ∧
    setPlayback (some sampleParty) "h1" "STOP" none 0 =
      .error (.validation "action must be PLAY or PAUSE") :=
  have t1 := claim10_invalid_action endedParty "h1" "STOP" none 0
    (by decide) (by decide) (by decide) (by decide)
  have t2 := claim10_invalid_action sampleParty "p1" "STOP" none 0
    (by decide) (by decide) (by decide) (by decide)
  have t3 := claim10_invalid_action sampleParty "h1" "STOP" none 0
    (by decide) (by decide) (by decide) (by decide)
  ⟨t1.1, t1.2.1 rfl, t2.2.2.1 (by decide) (by decide),
   t3.2.2.2 (by decide) (by decide)⟩

end Nero
